import Mathlib

/-!
Verification of the image-to-pdf converter.

A shallow embedding of the core logic of the `image-to-pdf` web application:
the `PDFConverter` class (page geometry, per-image placement, rotation
bounding box, brightness/contrast pixel transform, the one-per-page and
multiple-per-page conversion loops) and the page component's session
handlers (`handleFileSelect`, `handleImageDrop`, `rotateImageHandler`).

JavaScript numbers are modelled as exact rationals (`ℚ`); pixel channel
values are rationals in the RGBA stream of a canvas.  Trigonometric values
produced by `Math.cos` / `Math.sin` are passed as explicit rational
parameters and related to the exact real functions in the theorems.
Browser-side effects (image decoding, canvas blitting, object URLs,
random ids) are abstracted as explicit oracle parameters.  The JavaScript
remainder operator `%` on integers is `Int.tmod` (truncated remainder,
sign of the dividend).
-/

namespace ImageToPdf

/-- A browser `File`: the fields the application reads (`name`, `type`,
`size`). -/
structure BFile where
  name : String
  type : String
  size : ℕ
deriving DecidableEq, Repr

/-- `ImageData` from `pdf-converter` (second revision, with rotation and
colour adjustments).  `preview` is the object URL, `dimensions` the pixel
width/height pair. -/
structure ImageData where
  id : String
  file : BFile
  preview : String
  name : String
  dimensions : ℕ × ℕ
  rotation : ℤ
  brightness : ℚ
  contrast : ℚ
deriving DecidableEq, Repr

/-- `ImageFile` from the page component: `ImageData` plus upload metadata
and the `order` field used for drag-and-drop reordering.
(`uploadTime` is a `Date`; only its presence matters here.) -/
structure ImageFile where
  id : String
  file : BFile
  preview : String
  name : String
  size : ℕ
  dimensions : ℕ × ℕ
  uploadTime : ℕ
  rotation : ℤ
  brightness : ℚ
  contrast : ℚ
  order : ℕ
deriving DecidableEq, Repr

inductive PageSize | A4 | Letter | Legal
deriving DecidableEq, Repr

inductive Orientation | portrait | landscape
deriving DecidableEq, Repr

inductive Quality | low | medium | high
deriving DecidableEq, Repr

inductive Layout | onePerPage | multiplePerPage
deriving DecidableEq, Repr

/-- `PDFSettings`. -/
structure PDFSettings where
  pageSize : PageSize
  orientation : Orientation
  quality : Quality
  layout : Layout
deriving DecidableEq, Repr

/-- A canvas: pixel dimensions and the RGBA channel stream
(`data[4*k] = R`, `data[4*k+1] = G`, `data[4*k+2] = B`, `data[4*k+3] = A`
of pixel `k`). -/
structure Canvas where
  width : ℕ
  height : ℕ
  data : List ℚ
deriving DecidableEq, Repr

/-- `PDFConverter.getPageDimensions`: page size in mm for the configured
format and orientation. -/
def getPageDimensions (settings : PDFSettings) : ℚ × ℚ :=
  match settings.pageSize with
  | PageSize.A4 =>
      match settings.orientation with
      | Orientation.portrait => (210, 297)
      | Orientation.landscape => (297, 210)
  | PageSize.Letter =>
      match settings.orientation with
      | Orientation.portrait => (2159/10, 2794/10)
      | Orientation.landscape => (2794/10, 2159/10)
  | PageSize.Legal =>
      match settings.orientation with
      | Orientation.portrait => (2159/10, 3556/10)
      | Orientation.landscape => (3556/10, 2159/10)

/-- `PDFConverter.calculateImageDimensions`: scale `(imgWidth, imgHeight)`
to fit `(maxWidth, maxHeight)` preserving the aspect ratio. -/
def calculateImageDimensions (imgWidth imgHeight maxWidth maxHeight : ℚ) :
    ℚ × ℚ :=
  let aspectRatio := imgWidth / imgHeight
  let width := maxWidth
  let height := width / aspectRatio
  if height > maxHeight then (maxHeight * aspectRatio, maxHeight)
  else (width, height)

/-- `Math.max(0, Math.min(255, x))`. -/
def clamp255 (x : ℚ) : ℚ := max 0 (min 255 x)

/-- The body of the pixel loop of `adjustBrightnessContrast`: for each
RGBA quadruple, apply the brightness factor (clamped) to the three colour
channels, then the contrast factor around 128 (clamped); the alpha channel
is untouched.  Trailing channels not forming a full quadruple (impossible
for a real canvas) are left unchanged. -/
def adjustData (brightnessFactor contrastFactor : ℚ) : List ℚ → List ℚ
  | r :: g :: b :: a :: rest =>
      let r1 := clamp255 (r * brightnessFactor)
      let g1 := clamp255 (g * brightnessFactor)
      let b1 := clamp255 (b * brightnessFactor)
      let r2 := clamp255 ((r1 - 128) * contrastFactor + 128)
      let g2 := clamp255 ((g1 - 128) * contrastFactor + 128)
      let b2 := clamp255 ((b1 - 128) * contrastFactor + 128)
      r2 :: g2 :: b2 :: a :: adjustData brightnessFactor contrastFactor rest
  | l => l

/-- `PDFConverter.adjustBrightnessContrast`: transform the pixel data in
place; the canvas dimensions are untouched. -/
def adjustBrightnessContrast (canvas : Canvas) (brightness contrast : ℚ) :
    Canvas :=
  let brightnessFactor := 1 + brightness / 100
  let contrastFactor := 1 + contrast / 100
  { canvas with data := adjustData brightnessFactor contrastFactor canvas.data }

/-- The per-channel transform `adjustBrightnessContrast` applies to a
red, green or blue channel value `c`. -/
def channelMap (brightness contrast : ℚ) (c : ℚ) : ℚ :=
  clamp255 ((clamp255 (c * (1 + brightness / 100)) - 128) *
    (1 + contrast / 100) + 128)

/-- `PDFConverter.rotateCanvas`: the rotated canvas has the bounding-box
dimensions `ceil(w·|cos t| + h·|sin t|) × ceil(w·|sin t| + h·|cos t|)`.
The values `Math.cos(radians)` and `Math.sin(radians)` are passed in as
`cosv` and `sinv`; the blitting of the rotated pixels is a canvas-API
effect and is not modelled. -/
def rotateCanvas (canvas : Canvas) (cosv sinv : ℚ) : Canvas :=
  let cos := |cosv|
  let sin := |sinv|
  let newWidth := (⌈(canvas.width : ℚ) * cos + (canvas.height : ℚ) * sin⌉).toNat
  let newHeight := (⌈(canvas.width : ℚ) * sin + (canvas.height : ℚ) * cos⌉).toNat
  { width := newWidth, height := newHeight, data := canvas.data }

/-- One `pdf.addImage` call: the page it lands on (1-based), the placement
rectangle in mm, and the name of the source image. -/
structure Placement where
  page : ℕ
  x : ℚ
  y : ℚ
  w : ℚ
  h : ℚ
  name : String
deriving DecidableEq, Repr

/-- The jsPDF document state the converter manipulates: the number of
pages (the constructor creates page 1; `addImage` targets the current,
i.e. last, page) and the list of placements in call order. -/
@[ext]
structure PDFDoc where
  pages : ℕ
  placed : List Placement
deriving DecidableEq, Repr

/-- `pdf.addPage()`. -/
def addPage (pdf : PDFDoc) : PDFDoc :=
  { pdf with pages := pdf.pages + 1 }

/-- `pdf.addImage(..., x, y, w, h)` for image `name` on the current page. -/
def addImage (pdf : PDFDoc) (x y w h : ℚ) (name : String) : PDFDoc :=
  { pdf with placed := pdf.placed ++ [⟨pdf.pages, x, y, w, h, name⟩] }

/-- `PDFConverter.convertOnePerPage`, loop body from index `i`.  `proc`
abstracts `processImage` (decode the preview, rotate, adjust): it returns
the processed canvas, or `none` when processing throws.  On failure the
`catch` logs and continues with the next image; on success a page is added
for every image but the first (by original index), and the scaled image is
centred inside the 20 mm margins.  Captions (`pdf.text`) add no
placements and are not modelled. -/
def convertOnePerPageAux (proc : ImageData → Option Canvas)
    (maxWidth maxHeight : ℚ) : ℕ → List ImageData → PDFDoc → PDFDoc
  | _, [], pdf => pdf
  | i, image :: rest, pdf =>
      let margin : ℚ := 20
      let pdf1 :=
        match proc image with
        | none => pdf
        | some canvas =>
            let wh := calculateImageDimensions (canvas.width : ℚ)
              (canvas.height : ℚ) maxWidth maxHeight
            let pdf1 := if 0 < i then addPage pdf else pdf
            let x := margin + (maxWidth - wh.1) / 2
            let y := margin + (maxHeight - wh.2) / 2
            addImage pdf1 x y wh.1 wh.2 image.name
      convertOnePerPageAux proc maxWidth maxHeight (i + 1) rest pdf1

/-- `PDFConverter.convertOnePerPage` on a fresh jsPDF document. -/
def convertOnePerPage (proc : ImageData → Option Canvas)
    (settings : PDFSettings) (images : List ImageData) : PDFDoc :=
  let pageDimensions := getPageDimensions settings
  let margin : ℚ := 20
  let maxWidth := pageDimensions.1 - margin * 2
  let maxHeight := pageDimensions.2 - margin * 2
  convertOnePerPageAux proc maxWidth maxHeight 0 images ⟨1, []⟩

/-- Loop state of `convertMultiplePerPage`: the document and the
`imagesOnCurrentPage` counter. -/
@[ext]
structure MultiState where
  pdf : PDFDoc
  imagesOnCurrentPage : ℕ
deriving DecidableEq, Repr

/-- `PDFConverter.convertMultiplePerPage`, loop body from index `i` with
2×2 grid cells of size `imageWidth × imageHeight` and margin 15 mm.  The
page-break check (`imagesOnCurrentPage === 0`) runs before the `try`
block, so it fires even for an image that subsequently fails; the grid
slot of a successful image is taken from `imagesOnCurrentPage`, which
only failures leave unchanged.  (`currentPage` in the source is written
and never read.) -/
def convertMultiplePerPageAux (proc : ImageData → Option Canvas)
    (margin imageWidth imageHeight : ℚ) :
    ℕ → List ImageData → MultiState → MultiState
  | _, [], st => st
  | i, image :: rest, st =>
      let cols : ℕ := 2
      let rows : ℕ := 2
      let st1 :=
        if st.imagesOnCurrentPage = 0 ∧ 0 < i then
          { st with pdf := addPage st.pdf }
        else st
      let st2 :=
        match proc image with
        | none => st1
        | some _ =>
            let col := st1.imagesOnCurrentPage % cols
            let row := st1.imagesOnCurrentPage / rows
            let x := margin + (col : ℚ) * (imageWidth + margin)
            let y := margin + (row : ℚ) * (imageHeight + margin)
            let pdf2 := addImage st1.pdf x y imageWidth imageHeight image.name
            let ioc := st1.imagesOnCurrentPage + 1
            { pdf := pdf2,
              imagesOnCurrentPage := if cols * rows ≤ ioc then 0 else ioc }
      convertMultiplePerPageAux proc margin imageWidth imageHeight
        (i + 1) rest st2

/-- `PDFConverter.convertMultiplePerPage` on a fresh jsPDF document. -/
def convertMultiplePerPage (proc : ImageData → Option Canvas)
    (settings : PDFSettings) (images : List ImageData) : PDFDoc :=
  let pageDimensions := getPageDimensions settings
  let margin : ℚ := 15
  let maxWidth := pageDimensions.1 - margin * 2
  let maxHeight := pageDimensions.2 - margin * 2
  let cols : ℚ := 2
  let rows : ℚ := 2
  let imageWidth := (maxWidth - margin * (cols - 1)) / cols
  let imageHeight := (maxHeight - margin * (rows - 1)) / rows
  (convertMultiplePerPageAux proc margin imageWidth imageHeight
    0 images ⟨⟨1, []⟩, 0⟩).pdf

/-- `PDFConverter.convertToPDF`: reject an empty list, otherwise convert
under the configured layout and emit the document (the blob). -/
def convertToPDF (proc : ImageData → Option Canvas)
    (settings : PDFSettings) (images : List ImageData) :
    Except String PDFDoc :=
  if images.length = 0 then
    Except.error "No images provided for conversion"
  else
    Except.ok <|
      match settings.layout with
      | Layout.onePerPage => convertOnePerPage proc settings images
      | Layout.multiplePerPage => convertMultiplePerPage proc settings images

/-- `rotateImage` from `pdf-converter`: add the increment and take the
JavaScript remainder (`%`, truncated, sign of the dividend) by 360. -/
def rotateImage (imageData : ImageData) (degrees : ℤ) : ImageData :=
  { imageData with rotation := Int.tmod (imageData.rotation + degrees) 360 }

/-- `rotateImageHandler` from the page component: update the matching
image's rotation with the same `(rotation + degrees) % 360` formula. -/
def rotateImageHandler (id : String) (degrees : ℤ)
    (images : List ImageFile) : List ImageFile :=
  images.map fun img =>
    if img.id = id then
      { img with rotation := Int.tmod (img.rotation + degrees) 360 }
    else img

/-- The validity predicate of `handleFileSelect`: an image MIME type and
at most the 10 MB size limit. -/
def isValidFile (f : BFile) : Bool :=
  f.type.startsWith "image/" && f.size ≤ 10 * 1024 * 1024

/-- The `validFiles.map((file, index) => ...)` step of `handleFileSelect`:
build the new `ImageFile` records.  `mkId index` stands for the random id,
`mkPreview file` for `URL.createObjectURL(file)`, `now` for `new Date()`;
dimensions start at `(0, 0)` (they are filled in asynchronously later) and
`order` is `images.length + index`. -/
def mkImageFiles (mkId : ℕ → String) (mkPreview : BFile → String)
    (now : ℕ) (baseLen : ℕ) : ℕ → List BFile → List ImageFile
  | _, [] => []
  | index, file :: rest =>
      { id := mkId index
        file := file
        preview := mkPreview file
        name := file.name
        size := file.size
        dimensions := (0, 0)
        uploadTime := now
        rotation := 0
        brightness := 0
        contrast := 0
        order := baseLen + index } ::
      mkImageFiles mkId mkPreview now baseLen (index + 1) rest

/-- `handleFileSelect`: reject the whole batch when the raw file count
would exceed 50 images; filter out non-image or oversized files; append
the remaining files as new `ImageFile`s (a batch with no valid file adds
nothing). -/
def handleFileSelect (mkId : ℕ → String) (mkPreview : BFile → String)
    (now : ℕ) (images : List ImageFile) (files : List BFile) :
    List ImageFile :=
  if 50 < images.length + files.length then images
  else
    let validFiles := files.filter isValidFile
    if validFiles.length = 0 then images
    else images ++ mkImageFiles mkId mkPreview now images.length 0 validFiles

/-- JavaScript `array.splice(i, 0, a)`: insert `a` at index `i` (at the
end when `i` exceeds the length). -/
def spliceInsert (l : List α) (i : ℕ) (a : α) : List α :=
  l.take i ++ a :: l.drop i

/-- The `newImages.forEach((img, index) => img.order = index)` step of
`handleImageDrop`, from start index `k`. -/
def renumberFrom (k : ℕ) : List ImageFile → List ImageFile
  | [] => []
  | img :: rest => { img with order := k } :: renumberFrom (k + 1) rest

/-- `handleImageDrop` with `draggedImage` state `dragged`: a drop on the
dragged image itself (or with no drag in progress) changes nothing;
otherwise remove the dragged image at its index, re-insert it at the
target's index (computed before the removal), and renumber all `order`
fields. -/
def handleImageDrop (dragged : Option String) (targetImageId : String)
    (images : List ImageFile) : List ImageFile :=
  match dragged with
  | none => images
  | some draggedImage =>
      if draggedImage = targetImageId then images
      else
        match images.find? (fun img => img.id = draggedImage),
            images.find? (fun img => img.id = targetImageId) with
        | some draggedImg, some _ =>
            let draggedIndex := images.findIdx
              (fun img => img.id = draggedImage)
            let targetIndex := images.findIdx
              (fun img => img.id = targetImageId)
            renumberFrom 0
              (spliceInsert (images.eraseIdx draggedIndex)
                targetIndex draggedImg)
        | _, _ => images

/-! ## Theorems -/

/-- C1.  For every image with positive pixel dimensions and every
positive page content area, `calculateImageDimensions` returns a pair
`(width, height)` with `0 < width ≤ maxWidth`, `0 < height ≤ maxHeight`,
`width / height = imgWidth / imgHeight` (the aspect ratio is preserved
exactly), and `width = maxWidth` or `height = maxHeight` (the image is
scaled as large as the content area permits). -/
theorem calculateImageDimensions_fits
    (imgWidth imgHeight maxWidth maxHeight : ℚ)
    (hiw : 0 < imgWidth) (hih : 0 < imgHeight)
    (hmw : 0 < maxWidth) (hmh : 0 < maxHeight) :
    0 < (calculateImageDimensions imgWidth imgHeight maxWidth maxHeight).1 ∧
    (calculateImageDimensions imgWidth imgHeight maxWidth maxHeight).1 ≤
      maxWidth ∧
    0 < (calculateImageDimensions imgWidth imgHeight maxWidth maxHeight).2 ∧
    (calculateImageDimensions imgWidth imgHeight maxWidth maxHeight).2 ≤
      maxHeight ∧
    (calculateImageDimensions imgWidth imgHeight maxWidth maxHeight).1 /
      (calculateImageDimensions imgWidth imgHeight maxWidth maxHeight).2 =
      imgWidth / imgHeight ∧
    ((calculateImageDimensions imgWidth imgHeight maxWidth maxHeight).1 =
        maxWidth ∨
      (calculateImageDimensions imgWidth imgHeight maxWidth maxHeight).2 =
        maxHeight) := by
  have har : 0 < imgWidth / imgHeight := div_pos hiw hih
  by_cases h : maxWidth / (imgWidth / imgHeight) > maxHeight
  · have hr : calculateImageDimensions imgWidth imgHeight maxWidth maxHeight =
        (maxHeight * (imgWidth / imgHeight), maxHeight) := by
      simp [calculateImageDimensions, h]
    rw [hr]
    refine ⟨mul_pos hmh har, le_of_lt ((lt_div_iff₀ har).mp h), hmh, le_refl _,
      mul_div_cancel_left₀ _ (ne_of_gt hmh), Or.inr rfl⟩
  · have hr : calculateImageDimensions imgWidth imgHeight maxWidth maxHeight =
        (maxWidth, maxWidth / (imgWidth / imgHeight)) := by
      simp [calculateImageDimensions, h]
    rw [hr]
    refine ⟨hmw, le_refl _, div_pos hmw har, not_lt.mp h, ?_, Or.inl rfl⟩
    field_simp
    ring

/-- Witness for C1 at the concrete input `(4, 3)` into a `170 × 257`
content area. -/
theorem calculateImageDimensions_fits_witness :
    (0 : ℚ) < 4 ∧ (0 : ℚ) < 3 ∧ (0 : ℚ) < 170 ∧ (0 : ℚ) < 257 ∧
    (0 < (calculateImageDimensions 4 3 170 257).1 ∧
      (calculateImageDimensions 4 3 170 257).1 ≤ 170 ∧
      0 < (calculateImageDimensions 4 3 170 257).2 ∧
      (calculateImageDimensions 4 3 170 257).2 ≤ 257 ∧
      (calculateImageDimensions 4 3 170 257).1 /
        (calculateImageDimensions 4 3 170 257).2 = 4 / 3 ∧
      ((calculateImageDimensions 4 3 170 257).1 = 170 ∨
        (calculateImageDimensions 4 3 170 257).2 = 257)) :=
  ⟨by norm_num, by norm_num, by norm_num, by norm_num,
    calculateImageDimensions_fits 4 3 170 257 (by norm_num) (by norm_num)
      (by norm_num) (by norm_num)⟩

/-- C3.  `rotateCanvas` produces a canvas whose dimensions are the
recomputed bounding box `(⌈w·|cos t| + h·|sin t|⌉, ⌈w·|sin t| + h·|cos t|⌉)`
where `t = d·π/180` (with `cosv`, `sinv` the values of `Math.cos`,
`Math.sin` at `t`); in particular for `d = 90` or `d = 270` the result has
dimensions `(h, w)` and for `d = 180` it has dimensions `(w, h)`. -/
theorem rotateCanvas_bounding_box (canvas : Canvas) (d : ℝ)
    (cosv sinv : ℚ)
    (hcos : (cosv : ℝ) = Real.cos (d * Real.pi / 180))
    (hsin : (sinv : ℝ) = Real.sin (d * Real.pi / 180)) :
    ((rotateCanvas canvas cosv sinv).width =
        (⌈(canvas.width : ℚ) * |cosv| + (canvas.height : ℚ) * |sinv|⌉).toNat ∧
      (rotateCanvas canvas cosv sinv).height =
        (⌈(canvas.width : ℚ) * |sinv| + (canvas.height : ℚ) * |cosv|⌉).toNat) ∧
    (d = 90 ∨ d = 270 →
      (rotateCanvas canvas cosv sinv).width = canvas.height ∧
      (rotateCanvas canvas cosv sinv).height = canvas.width) ∧
    (d = 180 →
      (rotateCanvas canvas cosv sinv).width = canvas.width ∧
      (rotateCanvas canvas cosv sinv).height = canvas.height) := by
  refine ⟨⟨rfl, rfl⟩, ?_, ?_⟩
  · rintro (rfl | rfl)
    · have ht : (90 : ℝ) * Real.pi / 180 = Real.pi / 2 := by ring
      rw [ht, Real.cos_pi_div_two] at hcos
      rw [ht, Real.sin_pi_div_two] at hsin
      have hc : cosv = 0 := by exact_mod_cast hcos
      have hs : sinv = 1 := by exact_mod_cast hsin
      subst hc hs
      constructor <;> simp [rotateCanvas]
    · have ht : (270 : ℝ) * Real.pi / 180 = Real.pi + Real.pi / 2 := by ring
      rw [ht, Real.cos_add, Real.cos_pi, Real.sin_pi, Real.cos_pi_div_two,
        Real.sin_pi_div_two] at hcos
      rw [ht, Real.sin_add, Real.cos_pi, Real.sin_pi, Real.cos_pi_div_two,
        Real.sin_pi_div_two] at hsin
      norm_num at hcos hsin
      have hc : cosv = 0 := by exact_mod_cast hcos
      have hs : sinv = -1 := by exact_mod_cast hsin
      subst hc hs
      constructor <;> simp [rotateCanvas]
  · rintro rfl
    have ht : (180 : ℝ) * Real.pi / 180 = Real.pi := by ring
    rw [ht, Real.cos_pi] at hcos
    rw [ht, Real.sin_pi] at hsin
    have hc : cosv = -1 := by exact_mod_cast hcos
    have hs : sinv = 0 := by exact_mod_cast hsin
    subst hc hs
    constructor <;> simp [rotateCanvas]

/-- Witness for C3 on a `4 × 3` canvas rotated by 90 degrees. -/
theorem rotateCanvas_bounding_box_witness :
    (((0 : ℚ) : ℝ) = Real.cos ((90 : ℝ) * Real.pi / 180)) ∧
    (((1 : ℚ) : ℝ) = Real.sin ((90 : ℝ) * Real.pi / 180)) ∧
    ((rotateCanvas ⟨4, 3, []⟩ 0 1).width = 3 ∧
      (rotateCanvas ⟨4, 3, []⟩ 0 1).height = 4) := by
  have ht : (90 : ℝ) * Real.pi / 180 = Real.pi / 2 := by ring
  have hcos : ((0 : ℚ) : ℝ) = Real.cos ((90 : ℝ) * Real.pi / 180) := by
    rw [ht, Real.cos_pi_div_two]; norm_num
  have hsin : ((1 : ℚ) : ℝ) = Real.sin ((90 : ℝ) * Real.pi / 180) := by
    rw [ht, Real.sin_pi_div_two]; norm_num
  exact ⟨hcos, hsin,
    (rotateCanvas_bounding_box ⟨4, 3, []⟩ 90 0 1 hcos hsin).2.1 (Or.inl rfl)⟩

/-- C9 counterexample.  The claim states that the rotation handlers
return `(rotation + d) mod 360 ∈ [0, 360)`.  At the concrete input
`rotation = 0`, `d = -90` (the decrement issued by the rotate-left
control), `rotateImage` stores `-90`: the JavaScript remainder keeps the
sign of the dividend, so the result is neither the mathematical
`(0 + -90) mod 360 = 270` nor inside `[0, 360)`. -/
theorem rotateImage_mod_counterexample :
    (rotateImage
        ⟨"img1", ⟨"a.png", "image/png", 5⟩, "blob:1", "a.png", (2, 2), 0, 0, 0⟩
        (-90)).rotation = -90 ∧
    (rotateImage
        ⟨"img1", ⟨"a.png", "image/png", 5⟩, "blob:1", "a.png", (2, 2), 0, 0, 0⟩
        (-90)).rotation ≠ ((0 : ℤ) + (-90)) % 360 ∧
    ¬ (0 ≤ (rotateImage
        ⟨"img1", ⟨"a.png", "image/png", 5⟩, "blob:1", "a.png", (2, 2), 0, 0, 0⟩
        (-90)).rotation) := by
  refine ⟨?_, ?_, ?_⟩ <;> simp [rotateImage] <;> decide

/-- C9 (amended).  `rotateImage` and `rotateImageHandler` set the
rotation field to the JavaScript remainder `(rotation + d) tmod 360`
(truncated, sign of the dividend) and leave every other field unchanged;
whenever `rotation + d` is non-negative — in particular for every
non-negative increment applied to a rotation in `[0, 360)` — this agrees
with the claimed mathematical `(rotation + d) mod 360` and lies in
`[0, 360)`. -/
theorem rotateImage_tmod (img : ImageData) (d : ℤ) (id : String)
    (images : List ImageFile) :
    ((rotateImage img d).rotation = Int.tmod (img.rotation + d) 360 ∧
      (rotateImage img d).id = img.id ∧
      (rotateImage img d).file = img.file ∧
      (rotateImage img d).preview = img.preview ∧
      (rotateImage img d).name = img.name ∧
      (rotateImage img d).dimensions = img.dimensions ∧
      (rotateImage img d).brightness = img.brightness ∧
      (rotateImage img d).contrast = img.contrast) ∧
    (0 ≤ img.rotation + d →
      (rotateImage img d).rotation = (img.rotation + d) % 360 ∧
      0 ≤ (rotateImage img d).rotation ∧
      (rotateImage img d).rotation < 360) ∧
    rotateImageHandler id d images = images.map (fun i =>
      if i.id = id then
        { i with rotation := Int.tmod (i.rotation + d) 360 }
      else i) := by
  refine ⟨⟨rfl, rfl, rfl, rfl, rfl, rfl, rfl, rfl⟩, ?_, rfl⟩
  intro hge
  have he : Int.tmod (img.rotation + d) 360 = (img.rotation + d) % 360 :=
    Int.tmod_eq_emod hge (by norm_num)
  refine ⟨he, ?_, ?_⟩
  · rw [show (rotateImage img d).rotation =
        Int.tmod (img.rotation + d) 360 from rfl, he]
    exact Int.emod_nonneg _ (by norm_num)
  · rw [show (rotateImage img d).rotation =
        Int.tmod (img.rotation + d) 360 from rfl, he]
    exact Int.emod_lt_of_pos _ (by norm_num)

/-- Witness for C9 (amended) at rotation 270, increment 90. -/
theorem rotateImage_tmod_witness :
    (0 : ℤ) ≤ (270 : ℤ) + 90 ∧
    (rotateImage
        ⟨"img2", ⟨"b.png", "image/png", 7⟩, "blob:2", "b.png", (3, 3), 270, 0, 0⟩
        90).rotation = ((270 : ℤ) + 90) % 360 := by
  refine ⟨by norm_num, ?_⟩
  exact ((rotateImage_tmod
    ⟨"img2", ⟨"b.png", "image/png", 7⟩, "blob:2", "b.png", (3, 3), 270, 0, 0⟩
    90 "img2" []).2.1 (by norm_num)).1

/-- C10.  `convertToPDF` rejects with
`"No images provided for conversion"` exactly when the image list is
empty; every non-empty list yields a PDF document. -/
theorem convertToPDF_empty_error (proc : ImageData → Option Canvas)
    (settings : PDFSettings) (images : List ImageData) :
    (convertToPDF proc settings images =
        Except.error "No images provided for conversion" ↔ images = []) ∧
    (images ≠ [] →
      ∃ pdf, convertToPDF proc settings images = Except.ok pdf) := by
  unfold convertToPDF
  by_cases h : images.length = 0
  · have : images = [] := List.length_eq_zero.mp h
    subst this
    simp
  · have hne : images ≠ [] := fun he => h (by simp [he])
    simp only [if_neg h]
    refine ⟨⟨fun hcon => absurd hcon (by simp), fun he => absurd he hne⟩,
      fun _ => ⟨_, rfl⟩⟩

/-- Witness for C10 on a one-element list. -/
theorem convertToPDF_empty_error_witness :
    ([⟨"img3", ⟨"c.png", "image/png", 9⟩, "blob:3", "c.png", (1, 1), 0, 0, 0⟩] :
      List ImageData) ≠ [] ∧
    ∃ pdf, convertToPDF (fun _ => none)
        ⟨PageSize.A4, Orientation.portrait, Quality.high, Layout.onePerPage⟩
        [⟨"img3", ⟨"c.png", "image/png", 9⟩, "blob:3", "c.png", (1, 1), 0, 0, 0⟩] =
        Except.ok pdf :=
  ⟨by simp,
    (convertToPDF_empty_error (fun _ => none)
      ⟨PageSize.A4, Orientation.portrait, Quality.high, Layout.onePerPage⟩
      [⟨"img3", ⟨"c.png", "image/png", 9⟩, "blob:3", "c.png", (1, 1), 0, 0, 0⟩]).2
      (by simp)⟩

/-- The session invariant of the upload list: at most 50 images, each
with an `image/` MIME type and at most 10 MB. -/
def sessionInvariant (images : List ImageFile) : Prop :=
  images.length ≤ 50 ∧
  ∀ img ∈ images, img.file.type.startsWith "image/" = true ∧
    img.file.size ≤ 10 * 1024 * 1024

theorem mkImageFiles_length (mkId : ℕ → String) (mkPreview : BFile → String)
    (now baseLen : ℕ) :
    ∀ (files : List BFile) (index : ℕ),
      (mkImageFiles mkId mkPreview now baseLen index files).length =
        files.length := by
  intro files
  induction files with
  | nil => intro index; rfl
  | cons f rest ih =>
      intro index
      simp [mkImageFiles, ih]

theorem mkImageFiles_file (mkId : ℕ → String) (mkPreview : BFile → String)
    (now baseLen : ℕ) :
    ∀ (files : List BFile) (index : ℕ) (img : ImageFile),
      img ∈ mkImageFiles mkId mkPreview now baseLen index files →
      img.file ∈ files := by
  intro files
  induction files with
  | nil => intro index img h; simp [mkImageFiles] at h
  | cons f rest ih =>
      intro index img h
      simp only [mkImageFiles, List.mem_cons] at h
      rcases h with h | h
      · subst h; simp
      · exact List.mem_cons_of_mem _ (ih (index + 1) img h)

/-- C7.  `handleFileSelect` preserves the session invariant: from any
list satisfying it, every stored image still has an `image/` MIME type and
at most `10 * 1024 * 1024` bytes, and the list holds at most 50 images;
a batch whose raw file count would push the total past 50 adds no images
at all. -/
theorem handleFileSelect_invariant (mkId : ℕ → String)
    (mkPreview : BFile → String) (now : ℕ)
    (images : List ImageFile) (files : List BFile)
    (hinv : sessionInvariant images) :
    sessionInvariant (handleFileSelect mkId mkPreview now images files) ∧
    (50 < images.length + files.length →
      handleFileSelect mkId mkPreview now images files = images) := by
  unfold handleFileSelect
  by_cases hcount : 50 < images.length + files.length
  · simp only [if_pos hcount]
    exact ⟨hinv, fun _ => by trivial⟩
  · simp only [if_neg hcount]
    by_cases hvalid : (files.filter isValidFile).length = 0
    · simp only [if_pos hvalid]
      exact ⟨hinv, fun h => absurd h hcount⟩
    · simp only [if_neg hvalid]
      refine ⟨⟨?_, ?_⟩, fun h => absurd h hcount⟩
      · rw [List.length_append, mkImageFiles_length]
        have hf := List.length_filter_le isValidFile files
        omega
      · intro img hmem
        rcases List.mem_append.mp hmem with h | h
        · exact hinv.2 img h
        · have hfile := mkImageFiles_file mkId mkPreview now images.length
            (files.filter isValidFile) 0 img h
          have hv : isValidFile img.file = true :=
            List.of_mem_filter hfile
          unfold isValidFile at hv
          rw [Bool.and_eq_true, decide_eq_true_eq] at hv
          exact ⟨hv.1, hv.2⟩

/-- Witness for C7: one valid, one invalid and one oversized file appended
to an empty session. -/
theorem handleFileSelect_invariant_witness :
    sessionInvariant [] ∧
    (sessionInvariant (handleFileSelect (fun n => toString n) (fun _ => "u") 0
        [] [⟨"a", "image/png", 5⟩, ⟨"b", "text/plain", 5⟩,
          ⟨"c", "image/jpeg", 99999999⟩]) ∧
      (50 < ([] : List ImageFile).length +
          ([⟨"a", "image/png", 5⟩, ⟨"b", "text/plain", 5⟩,
            ⟨"c", "image/jpeg", 99999999⟩] : List BFile).length →
        handleFileSelect (fun n => toString n) (fun _ => "u") 0
          [] [⟨"a", "image/png", 5⟩, ⟨"b", "text/plain", 5⟩,
            ⟨"c", "image/jpeg", 99999999⟩] = [])) := by
  have hinv : sessionInvariant [] := ⟨by simp, by simp⟩
  exact ⟨hinv, handleFileSelect_invariant (fun n => toString n) (fun _ => "u")
    0 [] [⟨"a", "image/png", 5⟩, ⟨"b", "text/plain", 5⟩,
      ⟨"c", "image/jpeg", 99999999⟩] hinv⟩

theorem adjustData_length (bf cf : ℚ) (l : List ℚ) :
    (adjustData bf cf l).length = l.length := by
  induction l using adjustData.induct bf cf with
  | case1 r g b a rest ih => simp [adjustData, ih]
  | case2 l h => simp [adjustData]

theorem adjustData_getElem? (bf cf : ℚ) (l : List ℚ) (hl : l.length % 4 = 0) :
    ∀ (j : ℕ), j < l.length →
      (adjustData bf cf l)[j]? =
        some (if j % 4 = 3 then l[j]!
          else clamp255 ((clamp255 (l[j]! * bf) - 128) * cf + 128)) := by
  induction l using adjustData.induct bf cf with
  | case1 r g b a rest ih =>
      intro j hj
      match j with
      | 0 => simp [adjustData]
      | 1 => simp [adjustData]
      | 2 => simp [adjustData]
      | 3 => simp [adjustData]
      | n + 4 =>
          have hrest : rest.length % 4 = 0 := by
            simp only [List.length_cons] at hl; omega
          have hn : n < rest.length := by
            simp only [List.length_cons] at hj; omega
          have hmod : (n + 4) % 4 = n % 4 := Nat.add_mod_right n 4
          simp only [adjustData, List.getElem?_cons_succ, List.getElem!_cons_succ,
            hmod]
          exact ih hrest n hn
  | case2 l h =>
      intro j hj
      match l, h with
      | [], _ => exact absurd hj (by simp)
      | [r], h => simp at hl
      | [r, g], h => simp at hl
      | [r, g, b], h => simp at hl
      | r :: g :: b :: a :: rest, h => exact absurd rfl (h r g b a rest)

/-- C2.  For every canvas and brightness `b` and contrast `k` in
`[-100, 100]`, `adjustBrightnessContrast` maps each red, green and blue
channel value `c` to
`clamp255((clamp255(c·(1 + b/100)) - 128)·(1 + k/100) + 128)` (brightness
first, clamped to `[0, 255]`, then contrast around 128, clamped again),
leaves every alpha channel unchanged, and leaves the canvas width and
height unchanged. -/
theorem adjustBrightnessContrast_pixels (canvas : Canvas) (b k : ℚ)
    (hb : -100 ≤ b ∧ b ≤ 100) (hk : -100 ≤ k ∧ k ≤ 100)
    (hdata : canvas.data.length = 4 * (canvas.width * canvas.height)) :
    (adjustBrightnessContrast canvas b k).width = canvas.width ∧
    (adjustBrightnessContrast canvas b k).height = canvas.height ∧
    (adjustBrightnessContrast canvas b k).data.length =
      canvas.data.length ∧
    ∀ (j : ℕ), j < canvas.data.length →
      (adjustBrightnessContrast canvas b k).data[j]? =
        some (if j % 4 = 3 then canvas.data[j]!
          else channelMap b k canvas.data[j]!) := by
  have hmod : canvas.data.length % 4 = 0 := by
    rw [hdata]; exact Nat.mul_mod_right 4 _
  refine ⟨rfl, rfl, adjustData_length _ _ _, ?_⟩
  intro j hj
  exact adjustData_getElem? (1 + b / 100) (1 + k / 100) canvas.data hmod j hj

/-- Witness for C2 on a single-pixel canvas with channel values
`(100, 101, 200, 7)`, brightness 50 and contrast 100. -/
theorem adjustBrightnessContrast_pixels_witness :
    ((-100 : ℚ) ≤ 50 ∧ (50 : ℚ) ≤ 100) ∧ ((-100 : ℚ) ≤ 100 ∧ (100 : ℚ) ≤ 100) ∧
    (Canvas.mk 1 1 [100, 101, 200, 7]).data.length = 4 * (1 * 1) ∧
    ((adjustBrightnessContrast ⟨1, 1, [100, 101, 200, 7]⟩ 50 100).width = 1 ∧
      (adjustBrightnessContrast ⟨1, 1, [100, 101, 200, 7]⟩ 50 100).height = 1 ∧
      (adjustBrightnessContrast ⟨1, 1, [100, 101, 200, 7]⟩ 50 100).data.length =
        (Canvas.mk 1 1 [100, 101, 200, 7]).data.length ∧
      ∀ (j : ℕ), j < (Canvas.mk 1 1 [100, 101, 200, 7]).data.length →
        (adjustBrightnessContrast ⟨1, 1, [100, 101, 200, 7]⟩ 50 100).data[j]? =
          some (if j % 4 = 3 then (Canvas.mk 1 1 [100, 101, 200, 7]).data[j]!
            else channelMap 50 100
              (Canvas.mk 1 1 [100, 101, 200, 7]).data[j]!)) :=
  ⟨⟨by norm_num, by norm_num⟩, ⟨by norm_num, by norm_num⟩, by simp,
    adjustBrightnessContrast_pixels ⟨1, 1, [100, 101, 200, 7]⟩ 50 100
      ⟨by norm_num, by norm_num⟩ ⟨by norm_num, by norm_num⟩ (by simp)⟩

theorem convertOnePerPageAux_names (proc : ImageData → Option Canvas)
    (maxWidth maxHeight : ℚ) :
    ∀ (rest : List ImageData) (i : ℕ) (pdf : PDFDoc),
      (convertOnePerPageAux proc maxWidth maxHeight i rest pdf).placed.map
          Placement.name =
        pdf.placed.map Placement.name ++
          (rest.filter (fun img => (proc img).isSome)).map ImageData.name := by
  intro rest
  induction rest with
  | nil => intro i pdf; simp [convertOnePerPageAux]
  | cons img rest ih =>
      intro i pdf
      simp only [convertOnePerPageAux]
      cases hp : proc img with
      | none =>
          rw [ih]
          simp [List.filter_cons, hp]
      | some c =>
          rw [ih]
          have hplaced : (if 0 < i then addPage pdf else pdf).placed =
              pdf.placed := by
            split <;> rfl
          simp [addImage, hplaced, List.filter_cons, hp]

theorem convertMultiplePerPageAux_names (proc : ImageData → Option Canvas)
    (margin imageWidth imageHeight : ℚ) :
    ∀ (rest : List ImageData) (i : ℕ) (st : MultiState),
      (convertMultiplePerPageAux proc margin imageWidth imageHeight
          i rest st).pdf.placed.map Placement.name =
        st.pdf.placed.map Placement.name ++
          (rest.filter (fun img => (proc img).isSome)).map ImageData.name := by
  intro rest
  induction rest with
  | nil => intro i st; simp [convertMultiplePerPageAux]
  | cons img rest ih =>
      intro i st
      simp only [convertMultiplePerPageAux]
      have hplaced : (if st.imagesOnCurrentPage = 0 ∧ 0 < i then
          { st with pdf := addPage st.pdf } else st).pdf.placed =
          st.pdf.placed := by
        split <;> rfl
      cases hp : proc img with
      | none =>
          rw [ih]
          simp [List.filter_cons, hp, hplaced]
      | some c =>
          rw [ih]
          simp [addImage, List.filter_cons, hp, hplaced]

/-- C4.  A failed image is skipped: under either layout the placed
images are exactly the successfully processed ones, in input order
(failed images contribute no placement and do not disturb the others),
and `convertToPDF` still resolves with a document for every non-empty
list regardless of which images fail. -/
theorem convert_skips_failed_images (proc : ImageData → Option Canvas)
    (settings : PDFSettings) (images : List ImageData) :
    (convertOnePerPage proc settings images).placed.map Placement.name =
      (images.filter (fun img => (proc img).isSome)).map ImageData.name ∧
    (convertMultiplePerPage proc settings images).placed.map Placement.name =
      (images.filter (fun img => (proc img).isSome)).map ImageData.name ∧
    (images ≠ [] →
      ∃ pdf, convertToPDF proc settings images = Except.ok pdf) := by
  refine ⟨?_, ?_, ?_⟩
  · unfold convertOnePerPage
    rw [convertOnePerPageAux_names]
    simp
  · unfold convertMultiplePerPage
    rw [convertMultiplePerPageAux_names]
    simp
  · intro hne
    unfold convertToPDF
    rw [if_neg (fun h => hne (List.length_eq_zero.mp h))]
    exact ⟨_, rfl⟩

/-- Witness for C4: two images of which the second fails to process; the
conversion still resolves. -/
theorem convert_skips_failed_images_witness :
    ([⟨"w1", ⟨"a.png", "image/png", 5⟩, "blob:a", "a.png", (4, 3), 0, 0, 0⟩,
      ⟨"w2", ⟨"b.png", "image/png", 5⟩, "blob:b", "b.png", (4, 3), 0, 0, 0⟩] :
        List ImageData) ≠ [] ∧
    ∃ pdf, convertToPDF
        (fun img => if img.name = "b.png" then none else some ⟨4, 3, []⟩)
        ⟨PageSize.A4, Orientation.portrait, Quality.high, Layout.onePerPage⟩
        [⟨"w1", ⟨"a.png", "image/png", 5⟩, "blob:a", "a.png", (4, 3), 0, 0, 0⟩,
         ⟨"w2", ⟨"b.png", "image/png", 5⟩, "blob:b", "b.png", (4, 3), 0, 0, 0⟩] =
        Except.ok pdf :=
  ⟨by simp,
    (convert_skips_failed_images
      (fun img => if img.name = "b.png" then none else some ⟨4, 3, []⟩)
      ⟨PageSize.A4, Orientation.portrait, Quality.high, Layout.onePerPage⟩
      [⟨"w1", ⟨"a.png", "image/png", 5⟩, "blob:a", "a.png", (4, 3), 0, 0, 0⟩,
       ⟨"w2", ⟨"b.png", "image/png", 5⟩, "blob:b", "b.png", (4, 3), 0, 0, 0⟩]).2.2
      (by simp)⟩

/-- The placement `convertOnePerPage` produces for the image of original
index `i` whose processed canvas is `c` (page `i + 1`, centred inside the
20 mm margins). -/
def placeOne (maxWidth maxHeight : ℚ) (i : ℕ) (c : Canvas)
    (image : ImageData) : Placement :=
  let wh := calculateImageDimensions (c.width : ℚ) (c.height : ℚ)
    maxWidth maxHeight
  ⟨i + 1, 20 + (maxWidth - wh.1) / 2, 20 + (maxHeight - wh.2) / 2,
    wh.1, wh.2, image.name⟩

/-- The placements `convertOnePerPage` produces from original index `i`
on (skipping failed images). -/
def expectedOne (proc : ImageData → Option Canvas)
    (maxWidth maxHeight : ℚ) : ℕ → List ImageData → List Placement
  | _, [] => []
  | i, image :: rest =>
      match proc image with
      | none => expectedOne proc maxWidth maxHeight (i + 1) rest
      | some c => placeOne maxWidth maxHeight i c image ::
          expectedOne proc maxWidth maxHeight (i + 1) rest

theorem convertOnePerPageAux_spec (proc : ImageData → Option Canvas)
    (maxWidth maxHeight : ℚ) :
    ∀ (rest : List ImageData) (i : ℕ) (pdf : PDFDoc),
      (∀ img ∈ rest, (proc img).isSome) → 1 ≤ i → pdf.pages = i →
      convertOnePerPageAux proc maxWidth maxHeight i rest pdf =
        ⟨i + rest.length,
          pdf.placed ++ expectedOne proc maxWidth maxHeight i rest⟩ := by
  intro rest
  induction rest with
  | nil =>
      intro i pdf hall hi hpages
      simp only [convertOnePerPageAux, expectedOne, List.length_nil,
        Nat.add_zero, List.append_nil]
      exact PDFDoc.ext hpages rfl
  | cons img rest ih =>
      intro i pdf hall hi hpages
      have hsome : (proc img).isSome := hall img (List.mem_cons_self img rest)
      obtain ⟨c, hc⟩ := Option.isSome_iff_exists.mp hsome
      simp only [convertOnePerPageAux, expectedOne, hc]
      rw [if_pos (by omega : 0 < i)]
      have hstep : convertOnePerPageAux proc maxWidth maxHeight (i + 1) rest
          (addImage (addPage pdf)
            (20 + (maxWidth - (calculateImageDimensions (c.width : ℚ)
              (c.height : ℚ) maxWidth maxHeight).1) / 2)
            (20 + (maxHeight - (calculateImageDimensions (c.width : ℚ)
              (c.height : ℚ) maxWidth maxHeight).2) / 2)
            (calculateImageDimensions (c.width : ℚ) (c.height : ℚ)
              maxWidth maxHeight).1
            (calculateImageDimensions (c.width : ℚ) (c.height : ℚ)
              maxWidth maxHeight).2 img.name) =
          ⟨(i + 1) + rest.length,
            (addImage (addPage pdf)
              (20 + (maxWidth - (calculateImageDimensions (c.width : ℚ)
                (c.height : ℚ) maxWidth maxHeight).1) / 2)
              (20 + (maxHeight - (calculateImageDimensions (c.width : ℚ)
                (c.height : ℚ) maxWidth maxHeight).2) / 2)
              (calculateImageDimensions (c.width : ℚ) (c.height : ℚ)
                maxWidth maxHeight).1
              (calculateImageDimensions (c.width : ℚ) (c.height : ℚ)
                maxWidth maxHeight).2 img.name).placed ++
              expectedOne proc maxWidth maxHeight (i + 1) rest⟩ :=
        ih (i + 1)
          _ (fun x hx => hall x (List.mem_cons_of_mem img hx))
          (by omega) (by simp [addImage, addPage, hpages])
      rw [hstep]
      have hpage : (addPage pdf).pages = i + 1 := by simp [addPage, hpages]
      simp only [addImage, addPage, hpages, placeOne, List.length_cons]
      apply PDFDoc.ext
      · simp only [addPage, addImage, hpages]
        omega
      · simp

theorem expectedOne_length (proc : ImageData → Option Canvas)
    (maxWidth maxHeight : ℚ) :
    ∀ (rest : List ImageData) (i : ℕ),
      (∀ img ∈ rest, (proc img).isSome) →
      (expectedOne proc maxWidth maxHeight i rest).length = rest.length := by
  intro rest
  induction rest with
  | nil => intro i _; rfl
  | cons img rest ih =>
      intro i hall
      obtain ⟨c, hc⟩ := Option.isSome_iff_exists.mp
        (hall img (List.mem_cons_self img rest))
      simp only [expectedOne, hc, List.length_cons]
      rw [ih (i + 1) (fun x hx => hall x (List.mem_cons_of_mem img hx))]

theorem expectedOne_getElem? (proc : ImageData → Option Canvas)
    (maxWidth maxHeight : ℚ) :
    ∀ (rest : List ImageData) (k j : ℕ) (hj : j < rest.length),
      (∀ img ∈ rest, (proc img).isSome) →
      ∃ c, proc rest[j] = some c ∧
        (expectedOne proc maxWidth maxHeight k rest)[j]? =
          some (placeOne maxWidth maxHeight (k + j) c rest[j]) := by
  intro rest
  induction rest with
  | nil => intro k j hj _; exact absurd hj (by simp)
  | cons img rest ih =>
      intro k j hj hall
      obtain ⟨c, hc⟩ := Option.isSome_iff_exists.mp
        (hall img (List.mem_cons_self img rest))
      match j with
      | 0 =>
          refine ⟨c, by simpa using hc, ?_⟩
          simp [expectedOne, hc]
      | n + 1 =>
          have hn : n < rest.length := by simpa using hj
          obtain ⟨c', hc', hget⟩ := ih (k + 1) n hn
            (fun x hx => hall x (List.mem_cons_of_mem img hx))
          refine ⟨c', by simpa using hc', ?_⟩
          simp only [expectedOne, hc, List.getElem?_cons_succ,
            List.getElem_cons_succ]
          rw [hget]
          congr 2
          omega

/-- C5.  When every image processes successfully under the
one-per-page layout, the loop places the images in input order: the
document has exactly `n` pages, the image at index `i` is the only
placement on page `i + 1`, and it is centred inside the 20 mm margins
(`x = 20 + (maxWidth - width)/2`, `y = 20 + (maxHeight - height)/2`). -/
theorem convertOnePerPage_layout (proc : ImageData → Option Canvas)
    (settings : PDFSettings) (images : List ImageData)
    (hne : images ≠ [])
    (hall : ∀ img ∈ images, (proc img).isSome) :
    (convertOnePerPage proc settings images).pages = images.length ∧
    (convertOnePerPage proc settings images).placed.length =
      images.length ∧
    ∀ (i : ℕ) (hi : i < images.length), ∃ c,
      proc images[i] = some c ∧
      (convertOnePerPage proc settings images).placed[i]? =
        some ⟨i + 1,
          20 + ((getPageDimensions settings).1 - 20 * 2 -
            (calculateImageDimensions (c.width : ℚ) (c.height : ℚ)
              ((getPageDimensions settings).1 - 20 * 2)
              ((getPageDimensions settings).2 - 20 * 2)).1) / 2,
          20 + ((getPageDimensions settings).2 - 20 * 2 -
            (calculateImageDimensions (c.width : ℚ) (c.height : ℚ)
              ((getPageDimensions settings).1 - 20 * 2)
              ((getPageDimensions settings).2 - 20 * 2)).2) / 2,
          (calculateImageDimensions (c.width : ℚ) (c.height : ℚ)
            ((getPageDimensions settings).1 - 20 * 2)
            ((getPageDimensions settings).2 - 20 * 2)).1,
          (calculateImageDimensions (c.width : ℚ) (c.height : ℚ)
            ((getPageDimensions settings).1 - 20 * 2)
            ((getPageDimensions settings).2 - 20 * 2)).2,
          images[i].name⟩ := by
  obtain ⟨img0, rest, rfl⟩ :=
    List.exists_cons_of_ne_nil hne
  obtain ⟨c0, hc0⟩ := Option.isSome_iff_exists.mp
    (hall img0 (List.mem_cons_self img0 rest))
  set maxWidth := (getPageDimensions settings).1 - 20 * 2 with hmw
  set maxHeight := (getPageDimensions settings).2 - 20 * 2 with hmh
  have hrun : convertOnePerPage proc settings (img0 :: rest) =
      ⟨(img0 :: rest).length,
        expectedOne proc maxWidth maxHeight 0 (img0 :: rest)⟩ := by
    unfold convertOnePerPage
    simp only [convertOnePerPageAux, expectedOne, hc0]
    rw [if_neg (by omega : ¬ 0 < 0)]
    have := convertOnePerPageAux_spec proc maxWidth maxHeight rest 1
      (addImage ⟨1, []⟩
        (20 + (maxWidth - (calculateImageDimensions (c0.width : ℚ)
          (c0.height : ℚ) maxWidth maxHeight).1) / 2)
        (20 + (maxHeight - (calculateImageDimensions (c0.width : ℚ)
          (c0.height : ℚ) maxWidth maxHeight).2) / 2)
        (calculateImageDimensions (c0.width : ℚ) (c0.height : ℚ)
          maxWidth maxHeight).1
        (calculateImageDimensions (c0.width : ℚ) (c0.height : ℚ)
          maxWidth maxHeight).2 img0.name)
      (fun x hx => hall x (List.mem_cons_of_mem img0 hx)) (le_refl 1)
      (by simp [addImage])
    rw [this]
    simp only [addImage, placeOne, List.length_cons]
    apply PDFDoc.ext
    · simp only [addPage, addImage]
      omega
    · simp
  have hall' : ∀ img ∈ img0 :: rest, (proc img).isSome := hall
  refine ⟨by rw [hrun], ?_, ?_⟩
  · rw [hrun]
    exact expectedOne_length proc maxWidth maxHeight _ 0 hall'
  · intro i hi
    obtain ⟨c, hc, hget⟩ := expectedOne_getElem? proc maxWidth maxHeight
      (img0 :: rest) 0 i hi hall'
    refine ⟨c, hc, ?_⟩
    rw [hrun]
    simp only [hget, Nat.zero_add, placeOne]

/-- Witness for C5: two successfully processed images on A4 portrait. -/
theorem convertOnePerPage_layout_witness :
    ([⟨"w3", ⟨"a.png", "image/png", 5⟩, "blob:a", "a.png", (4, 3), 0, 0, 0⟩,
      ⟨"w4", ⟨"b.png", "image/png", 5⟩, "blob:b", "b.png", (4, 3), 0, 0, 0⟩] :
        List ImageData) ≠ [] ∧
    (convertOnePerPage (fun _ => some ⟨4, 3, []⟩)
      ⟨PageSize.A4, Orientation.portrait, Quality.high, Layout.onePerPage⟩
      [⟨"w3", ⟨"a.png", "image/png", 5⟩, "blob:a", "a.png", (4, 3), 0, 0, 0⟩,
       ⟨"w4", ⟨"b.png", "image/png", 5⟩, "blob:b", "b.png", (4, 3), 0, 0, 0⟩]).pages = 2 :=
  ⟨by simp,
    (convertOnePerPage_layout (fun _ => some ⟨4, 3, []⟩)
      ⟨PageSize.A4, Orientation.portrait, Quality.high, Layout.onePerPage⟩
      [⟨"w3", ⟨"a.png", "image/png", 5⟩, "blob:a", "a.png", (4, 3), 0, 0, 0⟩,
       ⟨"w4", ⟨"b.png", "image/png", 5⟩, "blob:b", "b.png", (4, 3), 0, 0, 0⟩]
      (by simp) (fun _ _ => rfl)).1⟩

/-- The placement `convertMultiplePerPage` produces for the image of
original index `i` when every image succeeds: page `⌊i/4⌋ + 1`, grid
column `(i mod 4) mod 2`, grid row `⌊(i mod 4)/2⌋`, in cells of size
`imageWidth × imageHeight` separated by `margin`. -/
def placeMulti (margin imageWidth imageHeight : ℚ) (i : ℕ)
    (image : ImageData) : Placement :=
  ⟨i / 4 + 1,
    margin + ((i % 4 % 2 : ℕ) : ℚ) * (imageWidth + margin),
    margin + ((i % 4 / 2 : ℕ) : ℚ) * (imageHeight + margin),
    imageWidth, imageHeight, image.name⟩

/-- The placements `convertMultiplePerPage` produces from original index
`i` on, when no image from index `i` on fails. -/
def expectedMulti (proc : ImageData → Option Canvas)
    (margin imageWidth imageHeight : ℚ) :
    ℕ → List ImageData → List Placement
  | _, [] => []
  | i, image :: rest =>
      match proc image with
      | none => expectedMulti proc margin imageWidth imageHeight (i + 1) rest
      | some _ => placeMulti margin imageWidth imageHeight i image ::
          expectedMulti proc margin imageWidth imageHeight (i + 1) rest

theorem convertMultiplePerPageAux_spec (proc : ImageData → Option Canvas)
    (margin imageWidth imageHeight : ℚ) :
    ∀ (rest : List ImageData) (i : ℕ) (st : MultiState),
      (∀ img ∈ rest, (proc img).isSome) → 1 ≤ i →
      st.imagesOnCurrentPage = i % 4 →
      st.pdf.pages = (i - 1) / 4 + 1 →
      convertMultiplePerPageAux proc margin imageWidth imageHeight i rest st =
        ⟨⟨(i + rest.length - 1) / 4 + 1,
          st.pdf.placed ++
            expectedMulti proc margin imageWidth imageHeight i rest⟩,
          (i + rest.length) % 4⟩ := by
  intro rest
  induction rest with
  | nil =>
      intro i st hall hi hioc hpages
      simp only [convertMultiplePerPageAux, expectedMulti, List.length_nil,
        Nat.add_zero, List.append_nil]
      apply MultiState.ext
      · apply PDFDoc.ext
        · rw [hpages]
        · rfl
      · rw [hioc]
  | cons img rest ih =>
      intro i st hall hi hioc hpages
      obtain ⟨c, hc⟩ := Option.isSome_iff_exists.mp
        (hall img (List.mem_cons_self img rest))
      have hst1 : (if st.imagesOnCurrentPage = 0 ∧ 0 < i then
          { st with pdf := addPage st.pdf } else st) =
          ⟨⟨i / 4 + 1, st.pdf.placed⟩, i % 4⟩ := by
        split_ifs with hcond
        · have h0 : i % 4 = 0 := by rw [← hioc]; exact hcond.1
          refine MultiState.ext (PDFDoc.ext ?_ rfl) hioc
          show st.pdf.pages + 1 = i / 4 + 1
          rw [hpages]; omega
        · have h0 : i % 4 ≠ 0 := by
            intro h
            exact hcond ⟨by rw [hioc, h], by omega⟩
          refine MultiState.ext (PDFDoc.ext ?_ rfl) hioc
          show st.pdf.pages = i / 4 + 1
          rw [hpages]; omega
      simp only [convertMultiplePerPageAux, expectedMulti, hc, hst1]
      have hioc2 : (if 2 * 2 ≤ i % 4 + 1 then 0 else i % 4 + 1) =
          (i + 1) % 4 := by split_ifs <;> omega
      rw [hioc2]
      rw [ih (i + 1)
        ⟨addImage ⟨i / 4 + 1, st.pdf.placed⟩
          (margin + ((i % 4 % 2 : ℕ) : ℚ) * (imageWidth + margin))
          (margin + ((i % 4 / 2 : ℕ) : ℚ) * (imageHeight + margin))
          imageWidth imageHeight img.name, (i + 1) % 4⟩
        (fun x hx => hall x (List.mem_cons_of_mem img hx))
        (by omega) rfl
        (by show i / 4 + 1 = (i + 1 - 1) / 4 + 1; omega)]
      refine MultiState.ext (PDFDoc.ext ?_ ?_) ?_
      · show (i + 1 + rest.length - 1) / 4 + 1 =
          (i + (rest.length + 1) - 1) / 4 + 1
        omega
      · show st.pdf.placed ++
            [placeMulti margin imageWidth imageHeight i img] ++
            expectedMulti proc margin imageWidth imageHeight (i + 1) rest =
          st.pdf.placed ++
            placeMulti margin imageWidth imageHeight i img ::
              expectedMulti proc margin imageWidth imageHeight (i + 1) rest
        simp
      · show (i + 1 + rest.length) % 4 = (i + (rest.length + 1)) % 4
        omega

theorem expectedMulti_length (proc : ImageData → Option Canvas)
    (margin imageWidth imageHeight : ℚ) :
    ∀ (rest : List ImageData) (i : ℕ),
      (∀ img ∈ rest, (proc img).isSome) →
      (expectedMulti proc margin imageWidth imageHeight i rest).length =
        rest.length := by
  intro rest
  induction rest with
  | nil => intro i _; rfl
  | cons img rest ih =>
      intro i hall
      obtain ⟨c, hc⟩ := Option.isSome_iff_exists.mp
        (hall img (List.mem_cons_self img rest))
      simp only [expectedMulti, hc, List.length_cons]
      rw [ih (i + 1) (fun x hx => hall x (List.mem_cons_of_mem img hx))]

theorem expectedMulti_getElem? (proc : ImageData → Option Canvas)
    (margin imageWidth imageHeight : ℚ) :
    ∀ (rest : List ImageData) (k j : ℕ) (hj : j < rest.length),
      (∀ img ∈ rest, (proc img).isSome) →
      (expectedMulti proc margin imageWidth imageHeight k rest)[j]? =
        some (placeMulti margin imageWidth imageHeight (k + j) rest[j]) := by
  intro rest
  induction rest with
  | nil => intro k j hj _; exact absurd hj (by simp)
  | cons img rest ih =>
      intro k j hj hall
      obtain ⟨c, hc⟩ := Option.isSome_iff_exists.mp
        (hall img (List.mem_cons_self img rest))
      match j with
      | 0 => simp [expectedMulti, hc]
      | n + 1 =>
          have hn : n < rest.length := by simpa using hj
          simp only [expectedMulti, hc, List.getElem?_cons_succ,
            List.getElem_cons_succ]
          rw [ih (k + 1) n hn (fun x hx => hall x (List.mem_cons_of_mem img hx))]
          congr 2
          omega

/-- C6.  When every image processes successfully under the
multiple-per-page layout, images are placed four per page in a 2×2 grid
with 15 mm margins: the image at index `i` lands on page `⌊i/4⌋ + 1` at
grid column `(i mod 4) mod 2` and grid row `⌊(i mod 4)/2⌋`, every cell is
`(maxWidth - margin)/2` wide and `(maxHeight - margin)/2` high, and the
document has exactly `⌈n/4⌉` pages. -/
theorem convertMultiplePerPage_layout (proc : ImageData → Option Canvas)
    (settings : PDFSettings) (images : List ImageData)
    (hne : images ≠ [])
    (hall : ∀ img ∈ images, (proc img).isSome) :
    (convertMultiplePerPage proc settings images).pages =
      (images.length + 3) / 4 ∧
    (convertMultiplePerPage proc settings images).placed.length =
      images.length ∧
    ∀ (i : ℕ) (hi : i < images.length),
      (convertMultiplePerPage proc settings images).placed[i]? =
        some ⟨i / 4 + 1,
          15 + ((i % 4 % 2 : ℕ) : ℚ) *
            (((getPageDimensions settings).1 - 15 * 2 - 15) / 2 + 15),
          15 + ((i % 4 / 2 : ℕ) : ℚ) *
            (((getPageDimensions settings).2 - 15 * 2 - 15) / 2 + 15),
          ((getPageDimensions settings).1 - 15 * 2 - 15) / 2,
          ((getPageDimensions settings).2 - 15 * 2 - 15) / 2,
          images[i].name⟩ := by
  obtain ⟨img0, rest, rfl⟩ := List.exists_cons_of_ne_nil hne
  obtain ⟨c0, hc0⟩ := Option.isSome_iff_exists.mp
    (hall img0 (List.mem_cons_self img0 rest))
  have hrun0 : ∀ (m w2 h2 : ℚ),
      (convertMultiplePerPageAux proc m w2 h2 0 (img0 :: rest)
          ⟨⟨1, []⟩, 0⟩).pdf =
        ⟨(rest.length + 1 + 3) / 4,
          expectedMulti proc m w2 h2 0 (img0 :: rest)⟩ := by
    intro m w2 h2
    have hzero : convertMultiplePerPageAux proc m w2 h2 0 (img0 :: rest)
        ⟨⟨1, []⟩, 0⟩ =
        convertMultiplePerPageAux proc m w2 h2 1 rest
          ⟨⟨1, [placeMulti m w2 h2 0 img0]⟩, 1⟩ := by
      simp only [convertMultiplePerPageAux, hc0]
      rfl
    rw [hzero]
    rw [convertMultiplePerPageAux_spec proc m w2 h2 rest 1
      ⟨⟨1, [placeMulti m w2 h2 0 img0]⟩, 1⟩
      (fun x hx => hall x (List.mem_cons_of_mem img0 hx)) (by omega) rfl rfl]
    refine PDFDoc.ext ?_ ?_
    · show (1 + rest.length - 1) / 4 + 1 = (rest.length + 1 + 3) / 4
      omega
    · show [placeMulti m w2 h2 0 img0] ++
          expectedMulti proc m w2 h2 1 rest =
        expectedMulti proc m w2 h2 0 (img0 :: rest)
      rw [show expectedMulti proc m w2 h2 0 (img0 :: rest) =
        placeMulti m w2 h2 0 img0 ::
          expectedMulti proc m w2 h2 1 rest by simp [expectedMulti, hc0]]
      simp
  have hconv : convertMultiplePerPage proc settings (img0 :: rest) =
      (convertMultiplePerPageAux proc 15
        (((getPageDimensions settings).1 - 15 * 2 - 15 * (2 - 1)) / 2)
        (((getPageDimensions settings).2 - 15 * 2 - 15 * (2 - 1)) / 2)
        0 (img0 :: rest) ⟨⟨1, []⟩, 0⟩).pdf := rfl
  have hrun : convertMultiplePerPage proc settings (img0 :: rest) =
      ⟨(rest.length + 1 + 3) / 4,
        expectedMulti proc 15
          (((getPageDimensions settings).1 - 15 * 2 - 15 * (2 - 1)) / 2)
          (((getPageDimensions settings).2 - 15 * 2 - 15 * (2 - 1)) / 2)
          0 (img0 :: rest)⟩ := by
    rw [hconv, hrun0]
  have hall' : ∀ img ∈ img0 :: rest, (proc img).isSome := hall
  have hlen : (expectedMulti proc 15
      (((getPageDimensions settings).1 - 15 * 2 - 15 * (2 - 1)) / 2)
      (((getPageDimensions settings).2 - 15 * 2 - 15 * (2 - 1)) / 2)
      0 (img0 :: rest)).length = (img0 :: rest).length :=
    expectedMulti_length proc 15 _ _ _ 0 hall'
  refine ⟨by rw [hrun]; simp, by rw [hrun]; exact hlen, ?_⟩
  intro i hi
  rw [hrun]
  rw [expectedMulti_getElem? proc 15
    (((getPageDimensions settings).1 - 15 * 2 - 15 * (2 - 1)) / 2)
    (((getPageDimensions settings).2 - 15 * 2 - 15 * (2 - 1)) / 2)
    (img0 :: rest) 0 i hi hall']
  simp only [Nat.zero_add, placeMulti, Option.some.injEq, Placement.mk.injEq]
  norm_num

/-- Witness for C6: five successfully processed images on A4 portrait,
filling one full grid page and starting a second. -/
theorem convertMultiplePerPage_layout_witness :
    ([⟨"w5", ⟨"a.png", "image/png", 5⟩, "blob:a", "a.png", (4, 3), 0, 0, 0⟩,
      ⟨"w6", ⟨"b.png", "image/png", 5⟩, "blob:b", "b.png", (4, 3), 0, 0, 0⟩,
      ⟨"w7", ⟨"c.png", "image/png", 5⟩, "blob:c", "c.png", (4, 3), 0, 0, 0⟩,
      ⟨"w8", ⟨"d.png", "image/png", 5⟩, "blob:d", "d.png", (4, 3), 0, 0, 0⟩,
      ⟨"w9", ⟨"e.png", "image/png", 5⟩, "blob:e", "e.png", (4, 3), 0, 0, 0⟩] :
        List ImageData) ≠ [] ∧
    (convertMultiplePerPage (fun _ => some ⟨4, 3, []⟩)
      ⟨PageSize.A4, Orientation.portrait, Quality.high, Layout.multiplePerPage⟩
      [⟨"w5", ⟨"a.png", "image/png", 5⟩, "blob:a", "a.png", (4, 3), 0, 0, 0⟩,
       ⟨"w6", ⟨"b.png", "image/png", 5⟩, "blob:b", "b.png", (4, 3), 0, 0, 0⟩,
       ⟨"w7", ⟨"c.png", "image/png", 5⟩, "blob:c", "c.png", (4, 3), 0, 0, 0⟩,
       ⟨"w8", ⟨"d.png", "image/png", 5⟩, "blob:d", "d.png", (4, 3), 0, 0, 0⟩,
       ⟨"w9", ⟨"e.png", "image/png", 5⟩, "blob:e", "e.png", (4, 3), 0, 0, 0⟩]).pages =
      (5 + 3) / 4 :=
  ⟨by simp,
    (convertMultiplePerPage_layout (fun _ => some ⟨4, 3, []⟩)
      ⟨PageSize.A4, Orientation.portrait, Quality.high, Layout.multiplePerPage⟩
      [⟨"w5", ⟨"a.png", "image/png", 5⟩, "blob:a", "a.png", (4, 3), 0, 0, 0⟩,
       ⟨"w6", ⟨"b.png", "image/png", 5⟩, "blob:b", "b.png", (4, 3), 0, 0, 0⟩,
       ⟨"w7", ⟨"c.png", "image/png", 5⟩, "blob:c", "c.png", (4, 3), 0, 0, 0⟩,
       ⟨"w8", ⟨"d.png", "image/png", 5⟩, "blob:d", "d.png", (4, 3), 0, 0, 0⟩,
       ⟨"w9", ⟨"e.png", "image/png", 5⟩, "blob:e", "e.png", (4, 3), 0, 0, 0⟩]
      (by simp) (fun _ _ => rfl)).1⟩

/-- Clear the `order` field: reordering statements compare images up to
the renumbered `order`. -/
def stripOrder (img : ImageFile) : ImageFile := { img with order := 0 }

theorem renumberFrom_length :
    ∀ (k : ℕ) (l : List ImageFile), (renumberFrom k l).length = l.length
  | _, [] => rfl
  | k, img :: rest => by
      simp [renumberFrom, renumberFrom_length (k + 1) rest]

theorem renumberFrom_getElem? :
    ∀ (l : List ImageFile) (k j : ℕ),
      (renumberFrom k l)[j]? =
        l[j]?.map (fun img => { img with order := k + j })
  | [], k, j => by simp [renumberFrom]
  | img :: rest, k, 0 => by simp [renumberFrom]
  | img :: rest, k, j + 1 => by
      simp only [renumberFrom, List.getElem?_cons_succ]
      rw [renumberFrom_getElem? rest (k + 1) j]
      have : k + 1 + j = k + (j + 1) := by omega
      rw [this]

theorem map_stripOrder_renumberFrom :
    ∀ (k : ℕ) (l : List ImageFile),
      (renumberFrom k l).map stripOrder = l.map stripOrder
  | _, [] => rfl
  | k, img :: rest => by
      simp only [renumberFrom, List.map_cons]
      rw [map_stripOrder_renumberFrom (k + 1) rest]
      rfl

theorem filter_map_stripOrder_renumberFrom (q : ImageFile → Bool)
    (hq : ∀ (img : ImageFile) (k : ℕ), q { img with order := k } = q img) :
    ∀ (k : ℕ) (l : List ImageFile),
      ((renumberFrom k l).filter q).map stripOrder =
        (l.filter q).map stripOrder
  | _, [] => rfl
  | k, img :: rest => by
      simp only [renumberFrom, List.filter_cons, hq img k]
      by_cases hp : q img = true
      · simp only [hp, if_pos]
        simp only [List.map_cons]
        rw [filter_map_stripOrder_renumberFrom q hq (k + 1) rest]
        rfl
      · simp only [Bool.not_eq_true] at hp
        simp only [hp, Bool.false_eq_true, if_neg, not_false_iff]
        exact filter_map_stripOrder_renumberFrom q hq (k + 1) rest

theorem find?_eq_getElem?_findIdx (p : α → Bool) :
    ∀ l : List α, l.find? p = l[l.findIdx p]?
  | [] => rfl
  | a :: l => by
      by_cases h : p a
      · simp [List.find?_cons, h, List.findIdx_cons]
      · simp [List.find?_cons, h, List.findIdx_cons,
          find?_eq_getElem?_findIdx p l]

theorem spliceInsert_length (l : List α) (i : ℕ) (a : α) (h : i ≤ l.length) :
    (spliceInsert l i a).length = l.length + 1 := by
  simp [spliceInsert]
  omega

theorem spliceInsert_getElem?_self (l : List α) (i : ℕ) (a : α)
    (h : i ≤ l.length) :
    (spliceInsert l i a)[i]? = some a := by
  unfold spliceInsert
  rw [List.getElem?_append_right (by simp [h] : (l.take i).length ≤ i)]
  simp [h]

theorem spliceInsert_perm (l : List α) (i : ℕ) (a : α) :
    (spliceInsert l i a).Perm (a :: l) := by
  unfold spliceInsert
  have h1 : (l.take i ++ a :: l.drop i).Perm (a :: (l.take i ++ l.drop i)) :=
    List.perm_middle
  rwa [List.take_append_drop] at h1

theorem spliceInsert_filter_neg (p : α → Bool) (l : List α) (i : ℕ) (a : α)
    (ha : p a = false) :
    (spliceInsert l i a).filter p = l.filter p := by
  conv_rhs => rw [← List.take_append_drop i l]
  unfold spliceInsert
  rw [List.filter_append, List.filter_append, List.filter_cons, ha]
  simp

theorem perm_getElem_cons_eraseIdx (l : List α) (i : ℕ) (h : i < l.length) :
    l.Perm (l[i] :: l.eraseIdx i) := by
  conv_lhs => rw [← List.take_append_drop i l, List.drop_eq_getElem_cons h]
  rw [List.eraseIdx_eq_take_drop_succ]
  exact List.perm_middle

theorem eraseIdx_filter_neg (p : α → Bool) (l : List α) (i : ℕ)
    (h : i < l.length) (hp : p l[i] = false) :
    (l.eraseIdx i).filter p = l.filter p := by
  conv_rhs => rw [← List.take_append_drop i l, List.drop_eq_getElem_cons h]
  rw [List.eraseIdx_eq_take_drop_succ, List.filter_append, List.filter_append,
    List.filter_cons, hp]
  simp

/-- C8.  Dropping a dragged image onto a distinct target image (both
present, ids unique) permutes the same images: the dragged image ends up
at the index the target previously occupied, the relative order of all
other images is unchanged, and afterwards every image's `order` field
equals its index in the new list. -/
theorem handleImageDrop_reorder (images : List ImageFile)
    (did tid : String) (dImg tImg : ImageFile)
    (hnodup : (images.map ImageFile.id).Nodup)
    (hd : dImg ∈ images) (hdid : dImg.id = did)
    (ht : tImg ∈ images) (htid : tImg.id = tid)
    (hne : did ≠ tid) :
    (handleImageDrop (some did) tid images).length = images.length ∧
    ((handleImageDrop (some did) tid images).map stripOrder).Perm
      (images.map stripOrder) ∧
    (handleImageDrop (some did) tid images)[images.findIdx
        (fun img => img.id = tid)]? =
      some { dImg with
        order := images.findIdx (fun img => img.id = tid) } ∧
    ((handleImageDrop (some did) tid images).filter
        (fun img => ¬ img.id = did)).map stripOrder =
      (images.filter (fun img => ¬ img.id = did)).map stripOrder ∧
    ∀ (j : ℕ), j < images.length →
      ((handleImageDrop (some did) tid images)[j]?.map ImageFile.order) =
        some j := by
  have hdlt : images.findIdx (fun img => img.id = did) < images.length :=
    List.findIdx_lt_length_of_exists ⟨dImg, hd, by simp [hdid]⟩
  have htlt : images.findIdx (fun img => img.id = tid) < images.length :=
    List.findIdx_lt_length_of_exists ⟨tImg, ht, by simp [htid]⟩
  have hfind_d : images.find? (fun img => img.id = did) =
      some (images[images.findIdx (fun img => img.id = did)]) := by
    rw [find?_eq_getElem?_findIdx]
    exact List.getElem?_eq_getElem hdlt
  have hfind_t : images.find? (fun img => img.id = tid) =
      some (images[images.findIdx (fun img => img.id = tid)]) := by
    rw [find?_eq_getElem?_findIdx]
    exact List.getElem?_eq_getElem htlt
  have hid_d : (images[images.findIdx (fun img => img.id = did)]).id =
      did := by
    have h2 := @List.findIdx_getElem _ (fun img => decide (img.id = did))
      images hdlt
    simpa using h2
  have heq_d : images[images.findIdx (fun img => img.id = did)] =
      dImg :=
    List.inj_on_of_nodup_map hnodup (List.getElem_mem hdlt) hd
      (by rw [hid_d, hdid])
  have hstep : handleImageDrop (some did) tid images =
      renumberFrom 0 (spliceInsert
        (images.eraseIdx (images.findIdx (fun img => img.id = did)))
        (images.findIdx (fun img => img.id = tid)) dImg) := by
    simp only [handleImageDrop]
    rw [if_neg hne, hfind_d, hfind_t, heq_d]
  have herase_len :
      (images.eraseIdx (images.findIdx (fun img => img.id = did))).length =
      images.length - 1 := List.length_eraseIdx_of_lt hdlt
  have htle : images.findIdx (fun img => img.id = tid) ≤
      (images.eraseIdx (images.findIdx (fun img => img.id = did))).length := by
    rw [herase_len]; omega
  have hbase_len : (spliceInsert
      (images.eraseIdx (images.findIdx (fun img => img.id = did)))
      (images.findIdx (fun img => img.id = tid)) dImg).length =
      images.length := by
    rw [spliceInsert_length _ _ _ htle, herase_len]
    omega
  refine ⟨?_, ?_, ?_, ?_, ?_⟩
  · rw [hstep, renumberFrom_length, hbase_len]
  · rw [hstep, map_stripOrder_renumberFrom]
    refine ((spliceInsert_perm _ _ dImg).map stripOrder).trans ?_
    have h1 := (perm_getElem_cons_eraseIdx images _ hdlt).map stripOrder
    rw [heq_d] at h1
    exact h1.symm
  · rw [hstep, renumberFrom_getElem?,
      spliceInsert_getElem?_self _ _ _ htle]
    simp
  · rw [hstep]
    rw [filter_map_stripOrder_renumberFrom
      (fun img => decide (¬ img.id = did)) (fun _ _ => rfl) 0]
    rw [spliceInsert_filter_neg _ _ _ _ (by simp [hdid])]
    rw [eraseIdx_filter_neg _ _ _ hdlt (by simp [hid_d])]
  · intro j hj
    rw [hstep, renumberFrom_getElem?]
    rw [List.getElem?_eq_getElem (by rw [hbase_len]; exact hj)]
    simp

/-- Witness for C8: dragging the first of three images onto the last. -/
theorem handleImageDrop_reorder_witness :
    (([⟨"A", ⟨"A", "image/png", 5⟩, "p", "A", 5, (0, 0), 0, 0, 0, 0, 0⟩,
       ⟨"B", ⟨"B", "image/png", 5⟩, "p", "B", 5, (0, 0), 0, 0, 0, 0, 1⟩,
       ⟨"C", ⟨"C", "image/png", 5⟩, "p", "C", 5, (0, 0), 0, 0, 0, 0, 2⟩] :
        List ImageFile).map ImageFile.id).Nodup ∧
    ("A" : String) ≠ "C" ∧
    (handleImageDrop (some "A") "C"
        [⟨"A", ⟨"A", "image/png", 5⟩, "p", "A", 5, (0, 0), 0, 0, 0, 0, 0⟩,
         ⟨"B", ⟨"B", "image/png", 5⟩, "p", "B", 5, (0, 0), 0, 0, 0, 0, 1⟩,
         ⟨"C", ⟨"C", "image/png", 5⟩, "p", "C", 5, (0, 0), 0, 0, 0, 0, 2⟩]).length = 3 ∧
    (handleImageDrop (some "A") "C"
        [⟨"A", ⟨"A", "image/png", 5⟩, "p", "A", 5, (0, 0), 0, 0, 0, 0, 0⟩,
         ⟨"B", ⟨"B", "image/png", 5⟩, "p", "B", 5, (0, 0), 0, 0, 0, 0, 1⟩,
         ⟨"C", ⟨"C", "image/png", 5⟩, "p", "C", 5, (0, 0), 0, 0, 0, 0, 2⟩])[
      ([⟨"A", ⟨"A", "image/png", 5⟩, "p", "A", 5, (0, 0), 0, 0, 0, 0, 0⟩,
        ⟨"B", ⟨"B", "image/png", 5⟩, "p", "B", 5, (0, 0), 0, 0, 0, 0, 1⟩,
        ⟨"C", ⟨"C", "image/png", 5⟩, "p", "C", 5, (0, 0), 0, 0, 0, 0, 2⟩] :
          List ImageFile).findIdx (fun img => img.id = "C")]? =
      some { (⟨"A", ⟨"A", "image/png", 5⟩, "p", "A", 5, (0, 0), 0, 0, 0, 0, 0⟩ :
          ImageFile) with
        order := ([⟨"A", ⟨"A", "image/png", 5⟩, "p", "A", 5, (0, 0), 0, 0, 0, 0, 0⟩,
          ⟨"B", ⟨"B", "image/png", 5⟩, "p", "B", 5, (0, 0), 0, 0, 0, 0, 1⟩,
          ⟨"C", ⟨"C", "image/png", 5⟩, "p", "C", 5, (0, 0), 0, 0, 0, 0, 2⟩] :
            List ImageFile).findIdx (fun img => img.id = "C") } := by
  have h := handleImageDrop_reorder
    [⟨"A", ⟨"A", "image/png", 5⟩, "p", "A", 5, (0, 0), 0, 0, 0, 0, 0⟩,
     ⟨"B", ⟨"B", "image/png", 5⟩, "p", "B", 5, (0, 0), 0, 0, 0, 0, 1⟩,
     ⟨"C", ⟨"C", "image/png", 5⟩, "p", "C", 5, (0, 0), 0, 0, 0, 0, 2⟩]
    "A" "C"
    ⟨"A", ⟨"A", "image/png", 5⟩, "p", "A", 5, (0, 0), 0, 0, 0, 0, 0⟩
    ⟨"C", ⟨"C", "image/png", 5⟩, "p", "C", 5, (0, 0), 0, 0, 0, 0, 2⟩
    (by simp) (by simp) rfl (by simp) rfl (by simp)
  exact ⟨by simp, by simp, h.1, h.2.2.1⟩

end ImageToPdf
